import Mathlib

/-!
Verification of the raw-socket UDP transport in dhcpv4/nclient4/conn_unix.go
(package nclient4): the receive-side demultiplexer (BroadcastRawUDPConn.ReadFrom),
the bound-pattern filter (udpMatch), the two send paths
(BroadcastRawUDPConn.WriteTo, UnicastRawUDPConn.WriteTo) and the hardware
address resolution chain (getHwAddr, arpResolve).

Bytes are modelled as Nat with an explicit mod 256 where a machine byte is
read; IP addresses are 4-byte lists (the Go code only handles IPv4 here, and
net.IP.Equal identifies the 4-byte and 16-byte forms, so we fix the 4-byte
form); a Go nil IP or nil pointer is Option.none.  External collaborators
(the raw packet socket, netlink, the ARP library) are passed in explicitly as
data or functions, and the calls made to them are recorded so that the
theorems can speak about which dependencies were exercised.
-/

/-- LogicalAddress: the model of net.UDPAddr.  The ip field is none for a Go
nil IP.  Ports are Nat (they come from 16-bit header fields). -/
structure UDPAddr where
  ip : Option (List Nat)
  port : Nat
deriving DecidableEq, Repr

/-- Model of net.IP.Equal on our Option-of-bytes representation: a nil IP
equals only a nil IP, two non-nil IPs are equal when their 4-byte forms agree
byte for byte. -/
def ipEqual : Option (List Nat) → Option (List Nat) → Bool
  | some a, some b => a == b
  | some _, none => false
  | none, some _ => false
  | none, none => true

/-- Source translation of udpMatch (conn_unix.go lines 97 to 105): a nil
bound pattern matches everything; a bound pattern with non-nil IP that does
not equal the destination IP rejects; otherwise the ports must be equal. -/
def udpMatch (addr : UDPAddr) (bound : Option UDPAddr) : Bool :=
  match bound with
  | none => true
  | some bd =>
    if bd.ip.isSome && !(ipEqual bd.ip addr.ip) then false
    else bd.port == addr.port

/-- Constant ipv4MinimumSize of the nclient4 package: 20 bytes. -/
def ipv4MinimumSize : Nat := 20

/-- Constant ipv4MaximumHeaderSize of the nclient4 package: 60 bytes. -/
def ipv4MaximumHeaderSize : Nat := 60

/-- Constant udpMinimumSize of the nclient4 package: 8 bytes. -/
def udpMinimumSize : Nat := 8

/-- Constant udpProtocolNumber of the nclient4 package: 17. -/
def udpProtocolNumber : Nat := 17

/-- Modelled from the spec: the IPv4HeaderView field headerLength of the
nclient4 ipv4 view (not under src).  The low nibble of byte 0 counts 32-bit
words, so the byte length is that nibble times 4. -/
def headerLength (hdr : List Nat) : Nat := (hdr.getD 0 0 % 16) * 4

/-- Modelled from the spec: the IPv4HeaderView field totalLength, the
big-endian 16-bit field at offsets 2 and 3. -/
def totalLength (hdr : List Nat) : Nat :=
  (hdr.getD 2 0 % 256) * 256 + hdr.getD 3 0 % 256

/-- Modelled from the spec: the IPv4HeaderView protocol number, the byte at
offset 9. -/
def transportProtocol (hdr : List Nat) : Nat := hdr.getD 9 0 % 256

/-- Modelled from the spec: the IPv4HeaderView source address, bytes 12 to 15. -/
def sourceAddress (hdr : List Nat) : List Nat :=
  [hdr.getD 12 0 % 256, hdr.getD 13 0 % 256, hdr.getD 14 0 % 256, hdr.getD 15 0 % 256]

/-- Modelled from the spec: the IPv4HeaderView destination address, bytes 16
to 19. -/
def destinationAddress (hdr : List Nat) : List Nat :=
  [hdr.getD 16 0 % 256, hdr.getD 17 0 % 256, hdr.getD 18 0 % 256, hdr.getD 19 0 % 256]

/-- Modelled from the spec: the UDPHeaderView source port, the big-endian
16-bit field at offsets 0 and 1 of the 8-byte UDP header window. -/
def udpSourcePort (hdr : List Nat) : Nat :=
  (hdr.getD 0 0 % 256) * 256 + hdr.getD 1 0 % 256

/-- Modelled from the spec: the UDPHeaderView destination port, the
big-endian 16-bit field at offsets 2 and 3 of the UDP header window. -/
def udpDestinationPort (hdr : List Nat) : Nat :=
  (hdr.getD 2 0 % 256) * 256 + hdr.getD 3 0 % 256

/-- Outcome of processing one raw frame inside the ReadFrom loop.  discard
means the loop continues with the next frame; deliver carries the bytes
copied into the caller buffer and the sender address returned with a nil
error; undef marks the one case (negative computed payload length) whose
behaviour the spec leaves undefined and the code delegates to the external
uio buffer library. -/
inductive FrameStep
  | discard
  | deliver (copied : List Nat) (src : UDPAddr)
  | undef
deriving DecidableEq, Repr

/-- Source translation of the per-frame body of BroadcastRawUDPConn.ReadFrom
(conn_unix.go lines 124 to 164).  The uio BigEndianBuffer is modelled
directly: Has n is a length test on the unconsumed remainder, Consume n
yields the next n bytes when available and nil (so the copy yields zero
bytes) when the remainder is shorter.  The computed payload length dhcpLen is
the spec formula, IP total length minus IP header length minus UDP header
length, over Int; the negative case is left as FrameStep.undef. -/
def processFrame (pkt : List Nat) (bufLen : Nat) (bound : Option UDPAddr) : FrameStep :=
  if pkt.length < ipv4MinimumSize then FrameStep.discard else
  let hl := headerLength pkt
  if pkt.length < hl then FrameStep.discard else
  let ipHdr := pkt.take hl
  if transportProtocol ipHdr != udpProtocolNumber then FrameStep.discard else
  let rest := pkt.drop hl
  if rest.length < udpMinimumSize then FrameStep.discard else
  let udpHdr := rest.take udpMinimumSize
  let dstAddr : UDPAddr := ⟨some (destinationAddress ipHdr), udpDestinationPort udpHdr⟩
  if !(udpMatch dstAddr bound) then FrameStep.discard else
  let srcAddr : UDPAddr := ⟨some (sourceAddress ipHdr), udpSourcePort udpHdr⟩
  let payloadRegion := rest.drop udpMinimumSize
  let dhcpLen : Int := (totalLength ipHdr : Int) - (hl : Int) - (udpMinimumSize : Int)
  if dhcpLen < 0 then FrameStep.undef else
  if payloadRegion.length < dhcpLen.toNat then FrameStep.deliver [] srcAddr else
  FrameStep.deliver ((payloadRegion.take dhcpLen.toNat).take bufLen) srcAddr

/-- One result of the underlying raw socket read: either n bytes of data
(n may be zero) or an error. -/
inductive ReadEvent
  | frame (data : List Nat)
  | rerr (e : Nat)
deriving DecidableEq, Repr

/-- Outcome of ReadFrom over a stream of read events.  delivered c s is the
return copy-count c.length with sender s and nil error; readError surfaces
an underlying read error verbatim; eof is the io.EOF returned on a
zero-length read; blocked means the event list ran out while the loop was
still retrying. -/
inductive ReadOutcome
  | delivered (copied : List Nat) (src : UDPAddr)
  | readError (e : Nat)
  | eof
  | undef
  | blocked
deriving DecidableEq, Repr

/-- Source translation of the BroadcastRawUDPConn.ReadFrom loop (conn_unix.go
lines 111 to 166): read, surface read errors, surface io.EOF on a
zero-length read, otherwise process the frame and either return or loop. -/
def ReadFrom (events : List ReadEvent) (bufLen : Nat) (bound : Option UDPAddr) : ReadOutcome :=
  match events with
  | [] => ReadOutcome.blocked
  | ReadEvent.rerr e :: _ => ReadOutcome.readError e
  | ReadEvent.frame data :: rest =>
    if data.length = 0 then ReadOutcome.eof
    else
      match processFrame data bufLen bound with
      | FrameStep.discard => ReadFrom rest bufLen bound
      | FrameStep.deliver c s => ReadOutcome.delivered c s
      | FrameStep.undef => ReadOutcome.undef

/-- Big-endian serialization of a 16-bit value into two bytes. -/
def u16be (v : Nat) : List Nat := [v / 256 % 256, v % 256]

/-- Normalization of an optional IP to exactly 4 bytes (the serializer
writes a 4-byte address field; an absent or short IP leaves zero bytes). -/
def ip4 (o : Option (List Nat)) : List Nat := ((o.getD []) ++ [0, 0, 0, 0]).take 4

/-- Modelled from the spec: udp4pkt, the nclient4 header serializer (not
under src).  Per sections 4.1 and 6 of the spec it wraps the payload in a
20-byte IPv4 header followed by an 8-byte UDP header: version 4 with minimal
header length, total length and UDP length fields computed from the payload
length, protocol UDP, checksums zero-filled, the bound address as notional
source and the destination argument as target. -/
def udp4pkt (payload : List Nat) (dest : UDPAddr) (src : Option UDPAddr) : List Nat :=
  let srcPort := (src.map UDPAddr.port).getD 0
  let srcIP := ip4 (src.bind UDPAddr.ip)
  let totalLen := ipv4MinimumSize + udpMinimumSize + payload.length
  let udpLen := udpMinimumSize + payload.length
  ([0x45, 0] ++ u16be totalLen ++ [0, 0, 0, 0, 64, udpProtocolNumber, 0, 0]
      ++ srcIP ++ ip4 dest.ip)
    ++ (u16be srcPort ++ u16be dest.port ++ u16be udpLen ++ [0, 0])
    ++ payload

/-- BroadcastMac of conn_unix.go line 42: the all-ones link address. -/
def BroadcastMac : List Nat := [255, 255, 255, 255, 255, 255]

/-- A net.Addr argument to WriteTo: either a valid UDPAddr or a value of some
other net.Addr implementation (the type assertion in the source fails on
the latter). -/
inductive NetAddr
  | udp (a : UDPAddr)
  | other (k : Nat)
deriving DecidableEq, Repr

/-- Errors returned by the WriteTo paths: ErrUDPAddrIsRequired,
ErrHWAddrNotFound, or an error of the underlying raw socket write carried
verbatim. -/
inductive WErr
  | udpAddrRequired
  | hwAddrNotFound
  | sock (e : Nat)
deriving DecidableEq, Repr

/-- Result of a WriteTo call: the returned byte count, the returned error,
and the list of (frame, link address) writes actually performed on the raw
socket, so the theorems can state that no socket write happened. -/
structure WriteOut where
  n : Nat
  err : Option WErr
  writes : List (List Nat × List Nat)
deriving DecidableEq, Repr

/-- Source translation of BroadcastRawUDPConn.WriteTo (conn_unix.go lines
173 to 184): reject non-UDPAddr destinations, frame the payload with the
bound address as notional source, hand the frame to the raw socket addressed
to BroadcastMac, and return the socket result verbatim.  The raw socket is
the function sock from (frame, link address) to (count, error). -/
def broadcastWriteTo (bound : Option UDPAddr) (sock : List Nat → List Nat → Nat × Option Nat)
    (b : List Nat) (addr : NetAddr) : WriteOut :=
  match addr with
  | NetAddr.other _ => ⟨0, some WErr.udpAddrRequired, []⟩
  | NetAddr.udp udpAddr =>
    let packet := udp4pkt b udpAddr bound
    let r := sock packet BroadcastMac
    ⟨r.1, r.2.map WErr.sock, [(packet, BroadcastMac)]⟩

/-- A kernel neighbor table entry as returned by netlink (already filtered to
the reachable state by the query in the source): its IP and its link
address, none when the kernel reports no link address. -/
structure Neigh where
  ip : Option (List Nat)
  hw : Option (List Nat)
deriving DecidableEq, Repr

/-- A netlink route as used by arpResolve: only the link index is read. -/
structure NetlinkRoute where
  linkIndex : Nat
deriving DecidableEq, Repr

/-- The external dependencies of arpResolve, passed in explicitly: netlink
RouteGet, net.InterfaceByIndex, arp.Dial and the ARP client Resolve call.
Interfaces and ARP clients are opaque handles (Nat); external errors are
opaque codes (Nat). -/
structure ArpEnv where
  routeGet : Option (List Nat) → Except Nat (List NetlinkRoute)
  interfaceByIndex : Nat → Except Nat Nat
  arpDial : Nat → Except Nat Nat
  clientResolve : Nat → Option (List Nat) → Except Nat (List Nat)

/-- Errors of the resolution chain, one constructor per return site of
getHwAddr and arpResolve, carrying the underlying error code verbatim. -/
inductive HwErr
  | neighListFailed (e : Nat)
  | routeGetFailed (e : Nat)
  | noRoute
  | interfaceFailed (e : Nat)
  | dialFailed (e : Nat)
  | resolveFailed (e : Nat)
deriving DecidableEq, Repr

/-- Call counts recorded against the external dependencies: how many route
lookups (netlink RouteGet) and how many active ARP exchanges (client
Resolve) were performed. -/
structure ArpTrace where
  routeLookups : Nat
  resolveCalls : Nat
deriving DecidableEq, Repr

/-- Source translation of arpResolve (conn_unix.go lines 237 to 257): route
lookup for the destination, failure when the lookup errs or returns no
route, interface lookup by the first route link index, ARP dial on that
interface, then the blocking Resolve exchange whose result or error is
returned.  The second component records the dependency calls performed. -/
def arpResolve (env : ArpEnv) (dest : Option (List Nat)) :
    Except HwErr (List Nat) × ArpTrace :=
  match env.routeGet dest with
  | Except.error e => (Except.error (HwErr.routeGetFailed e), ⟨1, 0⟩)
  | Except.ok [] => (Except.error HwErr.noRoute, ⟨1, 0⟩)
  | Except.ok (r :: _) =>
    match env.interfaceByIndex r.linkIndex with
    | Except.error e => (Except.error (HwErr.interfaceFailed e), ⟨1, 0⟩)
    | Except.ok ifc =>
      match env.arpDial ifc with
      | Except.error e => (Except.error (HwErr.dialFailed e), ⟨1, 0⟩)
      | Except.ok c =>
        match env.clientResolve c dest with
        | Except.error e => (Except.error (HwErr.resolveFailed e), ⟨1, 1⟩)
        | Except.ok mac => (Except.ok mac, ⟨1, 1⟩)

/-- Source translation of getHwAddr (conn_unix.go lines 219 to 235): list
the reachable neighbor entries (neighList is the netlink result, an error or
a snapshot list); return the link address of the first entry whose IP equals
the target and whose link address is not nil; otherwise fall back to
arpResolve.  The second component records the dependency calls performed. -/
def getHwAddr (neighList : Except Nat (List Neigh)) (env : ArpEnv)
    (ip : Option (List Nat)) : Except HwErr (List Nat) × ArpTrace :=
  match neighList with
  | Except.error e => (Except.error (HwErr.neighListFailed e), ⟨0, 0⟩)
  | Except.ok l =>
    match l.find? (fun neigh => ipEqual ip neigh.ip && neigh.hw.isSome) with
    | some neigh => (Except.ok (neigh.hw.getD []), ⟨0, 0⟩)
    | none => arpResolve env ip

/-- Source translation of UnicastRawUDPConn.WriteTo (conn_unix.go lines 202
to 216): reject non-UDPAddr destinations, frame the payload, resolve the
destination IP to a link address via getHwAddr, return ErrHWAddrNotFound
and perform no socket write when resolution fails, and otherwise send the
frame to the resolved link address returning the socket result verbatim. -/
def unicastWriteTo (neighList : Except Nat (List Neigh)) (env : ArpEnv)
    (bound : Option UDPAddr) (sock : List Nat → List Nat → Nat × Option Nat)
    (b : List Nat) (addr : NetAddr) : WriteOut :=
  match addr with
  | NetAddr.other _ => ⟨0, some WErr.udpAddrRequired, []⟩
  | NetAddr.udp udpAddr =>
    let packet := udp4pkt b udpAddr bound
    match (getHwAddr neighList env udpAddr.ip).1 with
    | Except.error _ => ⟨0, some WErr.hwAddrNotFound, []⟩
    | Except.ok dstMac =>
      let r := sock packet dstMac
      ⟨r.1, r.2.map WErr.sock, [(packet, dstMac)]⟩

/-- A concrete resolution environment in which every external dependency
fails, used by witnesses. -/
def failEnv : ArpEnv :=
  ⟨fun _ => Except.error 7, fun _ => Except.error 0,
   fun _ => Except.error 0, fun _ _ => Except.error 0⟩

/-- The end-to-end frame of section 8 of the spec: an IPv4 header with total
length 36, protocol UDP, source 10.0.0.1 and broadcast destination, a UDP
header with source port 67, destination port 68 and length 16, and the
8-byte payload DHCPACK!. -/
def demoFrame : List Nat :=
  [69, 0, 0, 36, 0, 0, 0, 0, 64, 17, 0, 0, 10, 0, 0, 1, 255, 255, 255, 255]
    ++ [0, 67, 0, 68, 0, 16, 0, 0] ++ [68, 72, 67, 80, 65, 67, 75, 33]

/-- A frame like demoFrame whose declared total length 36 promises 8 payload
bytes but which carries only 2, so the payload consume is underfull. -/
def shortFrame : List Nat :=
  [69, 0, 0, 36, 0, 0, 0, 0, 64, 17, 0, 0, 10, 0, 0, 1, 255, 255, 255, 255]
    ++ [0, 67, 0, 68, 0, 16, 0, 0] ++ [68, 72]

/-- The serialized frame is exactly the 20-byte IP header, the 8-byte UDP
header and the payload. -/
theorem udp4pkt_length (b : List Nat) (ua : UDPAddr) (bound : Option UDPAddr) :
    (udp4pkt b ua bound).length = ipv4MinimumSize + udpMinimumSize + b.length := by
  simp only [udp4pkt, ip4, u16be, List.length_append, List.length_take, List.length_cons,
    List.length_nil, ipv4MinimumSize, udpMinimumSize]
  omega

/-- C2: bound-pattern matching.  An absent pattern matches everything; a
pattern with nil IP matches exactly on port; a pattern with a non-nil IP and
a non-matching port never matches, regardless of the IP; the pattern with
nil IP and port 68 accepts any IP on port 68 and rejects port 67; the
pattern 10.0.0.5 port 68 rejects destination 10.0.0.6 port 68. -/
theorem udpMatch_spec :
    (∀ a : UDPAddr, udpMatch a none = true)
    ∧ (∀ (a : UDPAddr) (p : Nat), udpMatch a (some ⟨none, p⟩) = (p == a.port))
    ∧ (∀ (a : UDPAddr) (bip : List Nat) (p : Nat), p ≠ a.port →
        udpMatch a (some ⟨some bip, p⟩) = false)
    ∧ (∀ oip : Option (List Nat), udpMatch ⟨oip, 68⟩ (some ⟨none, 68⟩) = true)
    ∧ (∀ oip : Option (List Nat), udpMatch ⟨oip, 67⟩ (some ⟨none, 68⟩) = false)
    ∧ udpMatch ⟨some [10, 0, 0, 6], 68⟩ (some ⟨some [10, 0, 0, 5], 68⟩) = false := by
  refine ⟨fun a => rfl, fun a p => by simp [udpMatch], fun a bip p h => ?_,
    fun oip => by simp [udpMatch], fun oip => by simp [udpMatch], by decide⟩
  simp only [udpMatch]
  split
  · rfl
  · exact beq_eq_false_iff_ne.mpr h

/-- Witness for C2 at a concrete non-matching port. -/
theorem udpMatch_spec_witness :
    udpMatch ⟨some [1, 2, 3, 4], 67⟩ (some ⟨some [9, 9, 9, 9], 68⟩) = false :=
  udpMatch_spec.2.2.1 ⟨some [1, 2, 3, 4], 67⟩ [9, 9, 9, 9] 68 (by decide)

/-- C7: a zero-length underlying read makes ReadFrom return io.EOF at once,
and any underlying read error is surfaced at once and verbatim; neither is
retried. -/
theorem readFrom_read_error_spec (events : List ReadEvent) (bufLen : Nat)
    (bound : Option UDPAddr) (e : Nat) :
    ReadFrom (ReadEvent.frame [] :: events) bufLen bound = ReadOutcome.eof
    ∧ ReadFrom (ReadEvent.rerr e :: events) bufLen bound = ReadOutcome.readError e := by
  constructor <;> simp [ReadFrom]

/-- C8: in both modes a WriteTo destination that is not a UDPAddr yields
byte count 0 and ErrUDPAddrIsRequired, with no socket write performed. -/
theorem writeTo_address_type_spec (nl : Except Nat (List Neigh)) (env : ArpEnv)
    (bound : Option UDPAddr) (sock : List Nat → List Nat → Nat × Option Nat)
    (b : List Nat) (k : Nat) :
    broadcastWriteTo bound sock b (NetAddr.other k) = ⟨0, some WErr.udpAddrRequired, []⟩
    ∧ unicastWriteTo nl env bound sock b (NetAddr.other k) = ⟨0, some WErr.udpAddrRequired, []⟩ :=
  ⟨rfl, rfl⟩

/-- C3: resolution order of getHwAddr.  When the reachable neighbor snapshot
has an entry whose IP equals the target with a present link address, that
entry (the first such) is returned with zero route lookups and zero active
exchanges; otherwise getHwAddr is exactly arpResolve, which performs the
route lookup, fails when the lookup errs or yields no route, and otherwise
opens the session on the interface of the first route link index and
returns the result or error of the blocking exchange. -/
theorem getHwAddr_resolution_order :
    (∀ (l : List Neigh) (env : ArpEnv) (ip : Option (List Nat)) (neigh : Neigh),
        l.find? (fun n => ipEqual ip n.ip && n.hw.isSome) = some neigh →
        getHwAddr (Except.ok l) env ip = (Except.ok (neigh.hw.getD []), ⟨0, 0⟩))
    ∧ (∀ (l : List Neigh) (env : ArpEnv) (ip : Option (List Nat)),
        l.find? (fun n => ipEqual ip n.ip && n.hw.isSome) = none →
        getHwAddr (Except.ok l) env ip = arpResolve env ip)
    ∧ (∀ (env : ArpEnv) (ip : Option (List Nat)) (e : Nat),
        env.routeGet ip = Except.error e →
        arpResolve env ip = (Except.error (HwErr.routeGetFailed e), ⟨1, 0⟩))
    ∧ (∀ (env : ArpEnv) (ip : Option (List Nat)),
        env.routeGet ip = Except.ok [] →
        arpResolve env ip = (Except.error HwErr.noRoute, ⟨1, 0⟩))
    ∧ (∀ (env : ArpEnv) (ip : Option (List Nat)) (r : NetlinkRoute)
        (rs : List NetlinkRoute) (ifc c : Nat) (mac : List Nat),
        env.routeGet ip = Except.ok (r :: rs) →
        env.interfaceByIndex r.linkIndex = Except.ok ifc →
        env.arpDial ifc = Except.ok c →
        env.clientResolve c ip = Except.ok mac →
        arpResolve env ip = (Except.ok mac, ⟨1, 1⟩))
    ∧ (∀ (env : ArpEnv) (ip : Option (List Nat)) (r : NetlinkRoute)
        (rs : List NetlinkRoute) (ifc c e : Nat),
        env.routeGet ip = Except.ok (r :: rs) →
        env.interfaceByIndex r.linkIndex = Except.ok ifc →
        env.arpDial ifc = Except.ok c →
        env.clientResolve c ip = Except.error e →
        arpResolve env ip = (Except.error (HwErr.resolveFailed e), ⟨1, 1⟩)) := by
  refine ⟨?_, ?_, ?_, ?_, ?_, ?_⟩
  · intro l env ip neigh h
    simp [getHwAddr, h]
  · intro l env ip h
    simp [getHwAddr, h]
  · intro env ip e h
    simp [arpResolve, h]
  · intro env ip h
    simp [arpResolve, h]
  · intro env ip r rs ifc c mac h1 h2 h3 h4
    simp [arpResolve, h1, h2, h3, h4]
  · intro env ip r rs ifc c e h1 h2 h3 h4
    simp [arpResolve, h1, h2, h3, h4]

/-- Witness for C3: a one-entry neighbor table hits the fast path with no
route lookup and no active exchange, against an environment in which every
fallback dependency would fail. -/
theorem getHwAddr_resolution_order_witness :
    getHwAddr (Except.ok [⟨some [10, 0, 0, 5], some [1, 2, 3, 4, 5, 6]⟩]) failEnv
        (some [10, 0, 0, 5]) = (Except.ok [1, 2, 3, 4, 5, 6], ⟨0, 0⟩) :=
  getHwAddr_resolution_order.1 [⟨some [10, 0, 0, 5], some [1, 2, 3, 4, 5, 6]⟩] failEnv
    (some [10, 0, 0, 5]) ⟨some [10, 0, 0, 5], some [1, 2, 3, 4, 5, 6]⟩ rfl

/-- C4: unicast WriteTo resolves the destination IP first; a failed
resolution returns count 0 and ErrHWAddrNotFound with no socket write, and
a successful one sends the framed packet to the resolved link address,
returning the socket result. -/
theorem unicastWriteTo_resolution_spec (nl : Except Nat (List Neigh)) (env : ArpEnv)
    (bound : Option UDPAddr) (sock : List Nat → List Nat → Nat × Option Nat)
    (b : List Nat) (ua : UDPAddr) :
    (∀ e : HwErr, (getHwAddr nl env ua.ip).1 = Except.error e →
        unicastWriteTo nl env bound sock b (NetAddr.udp ua) =
          ⟨0, some WErr.hwAddrNotFound, []⟩)
    ∧ (∀ mac : List Nat, (getHwAddr nl env ua.ip).1 = Except.ok mac →
        unicastWriteTo nl env bound sock b (NetAddr.udp ua) =
          ⟨(sock (udp4pkt b ua bound) mac).1,
           (sock (udp4pkt b ua bound) mac).2.map WErr.sock,
           [(udp4pkt b ua bound, mac)]⟩) := by
  constructor
  · intro e h
    simp [unicastWriteTo, h]
  · intro mac h
    simp [unicastWriteTo, h]

/-- Witness for C4: an empty neighbor table and a failing route lookup make
resolution fail, and unicast WriteTo returns ErrHWAddrNotFound with no
socket write. -/
theorem unicastWriteTo_resolution_spec_witness :
    unicastWriteTo (Except.ok []) failEnv none (fun pkt _ => (pkt.length, none))
        [1, 2] (NetAddr.udp ⟨some [10, 0, 0, 9], 67⟩) =
      ⟨0, some WErr.hwAddrNotFound, []⟩ :=
  (unicastWriteTo_resolution_spec (Except.ok []) failEnv none
      (fun pkt _ => (pkt.length, none)) [1, 2] ⟨some [10, 0, 0, 9], 67⟩).1
    (HwErr.routeGetFailed 7) rfl

/-- C9: when the underlying raw socket reports the full written frame
length, WriteTo in either mode returns the length of the whole framed
packet, IP header plus UDP header plus payload, which strictly exceeds the
payload length by the 28 combined header bytes. -/
theorem writeTo_byte_count_spec (bound : Option UDPAddr) (b : List Nat) (ua : UDPAddr)
    (nl : Except Nat (List Neigh)) (env : ArpEnv)
    (sock : List Nat → List Nat → Nat × Option Nat)
    (hsock : ∀ pkt hw, sock pkt hw = (pkt.length, none)) :
    broadcastWriteTo bound sock b (NetAddr.udp ua) =
      ⟨ipv4MinimumSize + udpMinimumSize + b.length, none, [(udp4pkt b ua bound, BroadcastMac)]⟩
    ∧ (∀ mac : List Nat, (getHwAddr nl env ua.ip).1 = Except.ok mac →
        unicastWriteTo nl env bound sock b (NetAddr.udp ua) =
          ⟨ipv4MinimumSize + udpMinimumSize + b.length, none, [(udp4pkt b ua bound, mac)]⟩)
    ∧ b.length < ipv4MinimumSize + udpMinimumSize + b.length := by
  refine ⟨?_, ?_, by simp [ipv4MinimumSize, udpMinimumSize]⟩
  · simp [broadcastWriteTo, hsock, udp4pkt_length]
  · intro mac h
    simp [unicastWriteTo, h, hsock, udp4pkt_length]

/-- Witness for C9 with a socket that reports the full frame length: a
2-byte payload yields a returned count of 30 bytes. -/
theorem writeTo_byte_count_spec_witness :
    broadcastWriteTo none (fun pkt _ => (pkt.length, none)) [1, 2]
        (NetAddr.udp ⟨some [255, 255, 255, 255], 67⟩) =
      ⟨30, none, [(udp4pkt [1, 2] ⟨some [255, 255, 255, 255], 67⟩ none, BroadcastMac)]⟩ :=
  (writeTo_byte_count_spec none [1, 2] ⟨some [255, 255, 255, 255], 67⟩
      (Except.ok []) failEnv (fun pkt _ => (pkt.length, none)) (fun _ _ => rfl)).1

/-- On a frame that passes every parse check with a nonnegative computed
payload length, processFrame delivers: nothing when the frame is shorter
than its declared total length (the underfull consume yields no bytes), and
otherwise the declared payload truncated to the caller buffer length.  The
sender is the IP source address with the UDP source port. -/
theorem processFrame_deliver (pkt : List Nat) (bufLen : Nat) (bound : Option UDPAddr)
    (h20 : ipv4MinimumSize ≤ pkt.length)
    (hhl : headerLength pkt ≤ pkt.length)
    (hproto : transportProtocol (pkt.take (headerLength pkt)) = udpProtocolNumber)
    (hudp : headerLength pkt + udpMinimumSize ≤ pkt.length)
    (hmatch : udpMatch ⟨some (destinationAddress (pkt.take (headerLength pkt))),
        udpDestinationPort ((pkt.drop (headerLength pkt)).take udpMinimumSize)⟩ bound = true)
    (hlen : headerLength pkt + udpMinimumSize ≤ totalLength (pkt.take (headerLength pkt))) :
    processFrame pkt bufLen bound =
      if pkt.length < totalLength (pkt.take (headerLength pkt)) then
        FrameStep.deliver [] ⟨some (sourceAddress (pkt.take (headerLength pkt))),
          udpSourcePort ((pkt.drop (headerLength pkt)).take udpMinimumSize)⟩
      else
        FrameStep.deliver
          ((((pkt.drop (headerLength pkt)).drop udpMinimumSize).take
              (totalLength (pkt.take (headerLength pkt)) - (headerLength pkt + udpMinimumSize))).take bufLen)
          ⟨some (sourceAddress (pkt.take (headerLength pkt))),
            udpSourcePort ((pkt.drop (headerLength pkt)).take udpMinimumSize)⟩ := by
  have hreg : ((pkt.drop (headerLength pkt)).drop udpMinimumSize).length
      = pkt.length - headerLength pkt - udpMinimumSize := by
    rw [List.length_drop, List.length_drop]
  have htn : ((totalLength (pkt.take (headerLength pkt)) : Int) - (headerLength pkt : Int)
      - (udpMinimumSize : Int)).toNat
      = totalLength (pkt.take (headerLength pkt)) - (headerLength pkt + udpMinimumSize) := by
    omega
  simp only [processFrame]
  rw [if_neg (by omega : ¬ pkt.length < ipv4MinimumSize)]
  rw [if_neg (by omega : ¬ pkt.length < headerLength pkt)]
  rw [hproto]
  simp only [bne_self_eq_false, Bool.false_eq_true, if_false]
  rw [if_neg (by rw [List.length_drop]; omega :
    ¬ (pkt.drop (headerLength pkt)).length < udpMinimumSize)]
  rw [hmatch]
  simp only [Bool.not_true, Bool.false_eq_true, if_false]
  rw [if_neg (by omega :
    ¬ ((totalLength (pkt.take (headerLength pkt)) : Int) - (headerLength pkt : Int)
        - (udpMinimumSize : Int)) < 0)]
  rw [htn]
  by_cases hcase : pkt.length < totalLength (pkt.take (headerLength pkt))
  · rw [if_pos (by omega :
      ((pkt.drop (headerLength pkt)).drop udpMinimumSize).length
        < totalLength (pkt.take (headerLength pkt)) - (headerLength pkt + udpMinimumSize)),
      if_pos hcase]
  · rw [if_neg (by omega :
      ¬ ((pkt.drop (headerLength pkt)).drop udpMinimumSize).length
        < totalLength (pkt.take (headerLength pkt)) - (headerLength pkt + udpMinimumSize)),
      if_neg hcase]

/-- C1: on a raw frame that passes header parsing and matches the bound
pattern, and for any trailing padding appended to it, ReadFrom computes the
payload length as IP total length minus IP header length minus UDP header
length, copies at most bufLen bytes of exactly that payload (the padding is
never included), and returns the copied count with the sender address equal
to the IP source address and UDP source port. -/
theorem readFrom_payload_length_spec (pkt : List Nat) (bufLen : Nat) (bound : Option UDPAddr)
    (h20 : ipv4MinimumSize ≤ pkt.length)
    (hhl : headerLength pkt ≤ pkt.length)
    (hproto : transportProtocol (pkt.take (headerLength pkt)) = udpProtocolNumber)
    (hudp : headerLength pkt + udpMinimumSize ≤ pkt.length)
    (hmatch : udpMatch ⟨some (destinationAddress (pkt.take (headerLength pkt))),
        udpDestinationPort ((pkt.drop (headerLength pkt)).take udpMinimumSize)⟩ bound = true)
    (hlen : headerLength pkt + udpMinimumSize ≤ totalLength (pkt.take (headerLength pkt)))
    (hfit : totalLength (pkt.take (headerLength pkt)) ≤ pkt.length) :
    (∀ pad : List Nat, processFrame (pkt ++ pad) bufLen bound =
      FrameStep.deliver
        ((((pkt.drop (headerLength pkt)).drop udpMinimumSize).take
            (totalLength (pkt.take (headerLength pkt)) - (headerLength pkt + udpMinimumSize))).take bufLen)
        ⟨some (sourceAddress (pkt.take (headerLength pkt))),
          udpSourcePort ((pkt.drop (headerLength pkt)).take udpMinimumSize)⟩)
    ∧ (∀ (pad : List Nat) (events : List ReadEvent),
        ReadFrom (ReadEvent.frame (pkt ++ pad) :: events) bufLen bound =
          ReadOutcome.delivered
            ((((pkt.drop (headerLength pkt)).drop udpMinimumSize).take
                (totalLength (pkt.take (headerLength pkt)) - (headerLength pkt + udpMinimumSize))).take bufLen)
            ⟨some (sourceAddress (pkt.take (headerLength pkt))),
              udpSourcePort ((pkt.drop (headerLength pkt)).take udpMinimumSize)⟩)
    ∧ ((((pkt.drop (headerLength pkt)).drop udpMinimumSize).take
          (totalLength (pkt.take (headerLength pkt)) - (headerLength pkt + udpMinimumSize))).take bufLen).length
        = min bufLen (totalLength (pkt.take (headerLength pkt)) - (headerLength pkt + udpMinimumSize))
    ∧ ((((pkt.drop (headerLength pkt)).drop udpMinimumSize).take
          (totalLength (pkt.take (headerLength pkt)) - (headerLength pkt + udpMinimumSize))).take bufLen).length
        ≤ bufLen := by
  have hc20 : ipv4MinimumSize = 20 := rfl
  have hc8 : udpMinimumSize = 8 := rfl
  have hlen8 : udpMinimumSize ≤ (pkt.drop (headerLength pkt)).length := by
    rw [List.length_drop]; omega
  have hmain : ∀ pad : List Nat, processFrame (pkt ++ pad) bufLen bound =
      FrameStep.deliver
        ((((pkt.drop (headerLength pkt)).drop udpMinimumSize).take
            (totalLength (pkt.take (headerLength pkt)) - (headerLength pkt + udpMinimumSize))).take bufLen)
        ⟨some (sourceAddress (pkt.take (headerLength pkt))),
          udpSourcePort ((pkt.drop (headerLength pkt)).take udpMinimumSize)⟩ := by
    intro pad
    have hlenA : (pkt ++ pad).length = pkt.length + pad.length := List.length_append _ _
    have h0 : 0 < pkt.length := by omega
    have h1 : headerLength (pkt ++ pad) = headerLength pkt := by
      unfold headerLength
      rw [List.getD_append _ _ _ _ h0]
    have hTake : (pkt ++ pad).take (headerLength pkt) = pkt.take (headerLength pkt) :=
      List.take_append_of_le_length hhl
    have hDrop : (pkt ++ pad).drop (headerLength pkt) = pkt.drop (headerLength pkt) ++ pad :=
      List.drop_append_of_le_length hhl
    rw [processFrame_deliver (pkt ++ pad) bufLen bound
      (by omega) (by rw [h1]; omega)
      (by rw [h1, hTake]; exact hproto)
      (by rw [h1]; omega)
      (by rw [h1, hTake, hDrop, List.take_append_of_le_length hlen8]; exact hmatch)
      (by rw [h1, hTake]; omega)]
    rw [h1, hTake, hDrop]
    rw [if_neg (by omega : ¬ (pkt ++ pad).length < totalLength (pkt.take (headerLength pkt)))]
    rw [List.drop_append_of_le_length hlen8, List.take_append_of_le_length hlen8]
    have hdl2 : totalLength (pkt.take (headerLength pkt)) - (headerLength pkt + udpMinimumSize)
        ≤ ((pkt.drop (headerLength pkt)).drop udpMinimumSize).length := by
      rw [List.length_drop, List.length_drop]; omega
    rw [List.take_append_of_le_length hdl2]
  refine ⟨hmain, ?_, ?_, ?_⟩
  · intro pad events
    have hne : ¬ (pkt ++ pad).length = 0 := by rw [List.length_append]; omega
    simp only [ReadFrom, if_neg hne, hmain pad]
  · rw [List.length_take, List.length_take, List.length_drop, List.length_drop]
    omega
  · rw [List.length_take, List.length_take, List.length_drop, List.length_drop]
    omega

/-- Witness for C1: the section 8 frame with 4 bytes of trailing padding
delivers exactly the 8 payload bytes DHCPACK! and the sender 10.0.0.1 port
67; the padding is excluded. -/
theorem readFrom_payload_length_spec_witness :
    processFrame (demoFrame ++ [0, 0, 0, 0]) 272 (some ⟨none, 68⟩) =
      FrameStep.deliver [68, 72, 67, 80, 65, 67, 75, 33] ⟨some [10, 0, 0, 1], 67⟩ := by
  have h := (readFrom_payload_length_spec demoFrame 272 (some ⟨none, 68⟩)
    (by decide) (by decide) (by decide) (by decide) (by decide) (by decide) (by decide)).1
    [0, 0, 0, 0]
  rw [h]
  rfl

/-- The protocol test of processFrame operates on the consumed header
window; whenever byte 9 of the whole frame is not the UDP protocol number,
the window protocol also differs from it (the window either contains that
byte or is too short to contain offset 9 at all). -/
theorem transportProtocol_take_ne (pkt : List Nat)
    (h : pkt.getD 9 0 % 256 ≠ udpProtocolNumber) :
    transportProtocol (pkt.take (headerLength pkt)) ≠ udpProtocolNumber := by
  unfold transportProtocol
  by_cases h9 : 9 < headerLength pkt
  · rw [List.getD_eq_getElem?_getD, List.getElem?_take_of_lt h9, ← List.getD_eq_getElem?_getD]
    exact h
  · have hnone : (pkt.take (headerLength pkt))[9]? = none := by
      rw [List.getElem?_eq_none_iff, List.length_take]
      omega
    rw [List.getD_eq_getElem?_getD, hnone]
    simp [udpProtocolNumber]

/-- C6: a nonempty frame that is shorter than the minimum IP header, or
whose declared header length exceeds the bytes available, or whose protocol
byte is not UDP, or which lacks the 8 UDP header bytes after the IP header,
is discarded without crash, payload or error, and the receive loop goes on
with the next frame. -/
theorem readFrom_malformed_discard (pkt : List Nat) (bufLen : Nat) (bound : Option UDPAddr)
    (events : List ReadEvent)
    (hne : 0 < pkt.length)
    (hmal : pkt.length < ipv4MinimumSize ∨ pkt.length < headerLength pkt
      ∨ pkt.getD 9 0 % 256 ≠ udpProtocolNumber
      ∨ pkt.length < headerLength pkt + udpMinimumSize) :
    processFrame pkt bufLen bound = FrameStep.discard
    ∧ ReadFrom (ReadEvent.frame pkt :: events) bufLen bound = ReadFrom events bufLen bound := by
  have hdisc : processFrame pkt bufLen bound = FrameStep.discard := by
    simp only [processFrame]
    split_ifs with h1 h2 h3 h4 h5 h6 h7 <;> try rfl
    all_goals exfalso
    all_goals
      rcases hmal with hA | hA | hA | hA
      case _ => exact h1 hA
      case _ => exact h2 hA
      case _ => exact transportProtocol_take_ne pkt hA (by simpa using h3)
      case _ => rw [List.length_drop] at h4; omega
  refine ⟨hdisc, ?_⟩
  have hne0 : ¬ pkt.length = 0 := by omega
  simp only [ReadFrom, if_neg hne0, hdisc]

/-- Witness for C6: a one-byte frame is discarded and the loop continues. -/
theorem readFrom_malformed_discard_witness :
    processFrame [69] 5 none = FrameStep.discard
    ∧ ReadFrom [ReadEvent.frame [69]] 5 none = ReadFrom [] 5 none :=
  readFrom_malformed_discard [69] 5 none [] (by decide) (Or.inl (by decide))

/-- C10: a matching frame whose declared IP total length promises more
payload bytes than the frame carries makes ReadFrom return count 0 with the
sender address and a nil error, neither discarding the frame nor returning
a partial payload nor reporting an error. -/
theorem readFrom_underfull_payload (pkt : List Nat) (bufLen : Nat) (bound : Option UDPAddr)
    (events : List ReadEvent)
    (h20 : ipv4MinimumSize ≤ pkt.length)
    (hhl : headerLength pkt ≤ pkt.length)
    (hproto : transportProtocol (pkt.take (headerLength pkt)) = udpProtocolNumber)
    (hudp : headerLength pkt + udpMinimumSize ≤ pkt.length)
    (hmatch : udpMatch ⟨some (destinationAddress (pkt.take (headerLength pkt))),
        udpDestinationPort ((pkt.drop (headerLength pkt)).take udpMinimumSize)⟩ bound = true)
    (hlen : headerLength pkt + udpMinimumSize ≤ totalLength (pkt.take (headerLength pkt)))
    (hover : pkt.length < totalLength (pkt.take (headerLength pkt))) :
    processFrame pkt bufLen bound = FrameStep.deliver []
        ⟨some (sourceAddress (pkt.take (headerLength pkt))),
          udpSourcePort ((pkt.drop (headerLength pkt)).take udpMinimumSize)⟩
    ∧ ReadFrom (ReadEvent.frame pkt :: events) bufLen bound = ReadOutcome.delivered []
        ⟨some (sourceAddress (pkt.take (headerLength pkt))),
          udpSourcePort ((pkt.drop (headerLength pkt)).take udpMinimumSize)⟩ := by
  have hdel : processFrame pkt bufLen bound = FrameStep.deliver []
      ⟨some (sourceAddress (pkt.take (headerLength pkt))),
        udpSourcePort ((pkt.drop (headerLength pkt)).take udpMinimumSize)⟩ := by
    rw [processFrame_deliver pkt bufLen bound h20 hhl hproto hudp hmatch hlen, if_pos hover]
  refine ⟨hdel, ?_⟩
  have hc20 : ipv4MinimumSize = 20 := rfl
  have hne0 : ¬ pkt.length = 0 := by omega
  simp only [ReadFrom, if_neg hne0, hdel]

/-- Witness for C10: the truncated section 8 frame, declaring 8 payload
bytes but carrying 2, yields count 0 with the sender and no error. -/
theorem readFrom_underfull_payload_witness :
    processFrame shortFrame 272 (some ⟨none, 68⟩) =
      FrameStep.deliver [] ⟨some [10, 0, 0, 1], 67⟩ := by
  have h := (readFrom_underfull_payload shortFrame 272 (some ⟨none, 68⟩) []
    (by decide) (by decide) (by decide) (by decide) (by decide) (by decide) (by decide)).1
  rw [h]
  rfl
